import Mathlib

/-!
Verification of the ai-training agent examples.

This file shallowly embeds the Go sources of the repository:

* `cmd/examples/example10/step2` (file `src/unnamed/part_001`): the streaming
  chat agent with token counting and context-window eviction
  (`Agent.Run`, `Agent.addToConversation`).
* `cmd/examples/example10/step4/main.go`: the tool-calling agent
  (`Agent.Run`, `Agent.callTools`, `compareToolCalls`,
  `toolSuccessResponse`, `toolErrorResponse`, and the four tools
  `ReadFile`, `ListFiles`, `CreateFile`, `GoCodeEditor`).

Machinery that lives outside the repository (the `tiktoken` tokenizer, the
`os` filesystem calls, `go/parser`, `go/format`) is abstracted into explicit
parameters; everything else is translated from the Go source.
-/

namespace AiTraining

/-- A loosely typed Go/JSON value as the examples exchange them: tool-call
arguments arrive as `map[string]any` decoded by `encoding/json` and tool
results carry strings and string lists.  The examples' tool schemas declare
only string and integer parameters, so numbers are kept integral (Go's `%v`
prints the `float64` value `1` as `"1"`, matching `Int` rendering) and nested
arrays/objects are not needed. -/
inductive GoValue where
  | str (s : String)
  | num (n : Int)
  | boolean (b : Bool)
  | null
  | strs (elems : List String)
  deriving Repr, DecidableEq

/-- A tool-call argument mapping (`map[string]any`).  A Go map has no
intrinsic order; the association list is kept in the key-sorted order that
`fmt`'s `%v` prints. -/
abbrev Args := List (String × GoValue)

/-- `fmt.Sprintf("%v", v)` for a single value. -/
def renderGoValue : GoValue → String
  | .str s => s
  | .num n => toString n
  | .boolean b => if b then "true" else "false"
  | .null => "<nil>"
  | .strs es => "[" ++ String.intercalate " " es ++ "]"

def insertField (p : String × GoValue) : List (String × GoValue) → List (String × GoValue)
  | [] => [p]
  | q :: qs => if p.1 ≤ q.1 then p :: q :: qs else q :: insertField p qs

/-- `fmt` prints map keys in sorted order (Go ≥ 1.12). -/
def sortFields : List (String × GoValue) → List (String × GoValue)
  | [] => []
  | p :: ps => insertField p (sortFields ps)

/-- `fmt.Sprintf("%v", arguments)` for an argument map:
`map[k1:v1 k2:v2 ...]` with keys sorted. -/
def renderArgs (args : Args) : String :=
  "map[" ++ String.intercalate " "
    ((sortFields args).map fun p => p.1 ++ ":" ++ renderGoValue p.2) ++ "]"

/-- `arguments[key]`: `none` models the `nil` a Go map yields for a missing
key. -/
def lookupArg (args : Args) (key : String) : Option GoValue :=
  (args.find? fun p => p.1 == key).map fun p => p.2

/-- A conversation message.  In Go this is a `client.D` map; the fields used by
the examples are `role`, `content` (system/user/assistant text), and for tool
responses `name` plus the structured result that `toolSuccessResponse` /
`toolErrorResponse` serialize into the `content` JSON string via
`encoding/json` (the serializer is external; we keep the result structured as
`status`/`data`). -/
structure Message where
  role : String
  content : String := ""
  name : String := ""
  status : String := ""
  data : List (String × GoValue) := []
  deriving Repr, DecidableEq

/-- Sum of tokenizer counts over the `content` of every message of the
conversation.  This is exactly the `currentWindow` accumulation in
`Agent.addToConversation` (part_001): `for _, msg := range conversation
{ currentWindow += a.tke.TokenCount(msg["content"].(string)) }` — note that it
ranges over ALL messages, including the system message at index 0.
The tokenizer `tke` is the external `tiktoken` library, kept abstract. -/
def sumTokens (tke : String → Nat) (conv : List Message) : Nat :=
  (conv.map fun m => tke m.content).sum

/-- Sum of tokenizer counts over the non-system messages only (the quantity
the specification speaks about). -/
def nonSysTokens (tke : String → Nat) (conv : List Message) : Nat :=
  ((conv.filter fun m => m.role ≠ "system").map fun m => tke m.content).sum

/-- `slices.Delete(conversation, 1, 2)` for a slice of length at least 2:
removes exactly the element at index 1.  On shorter slices Go panics
(`j > len(s)`); callers of this function guard the length. -/
def deleteSecond : List Message → List Message
  | a :: _ :: rest => a :: rest
  | l => l

/-- The eviction loop of `Agent.addToConversation` (part_001, lines 272-297):

    for {
      var currentWindow int
      for _, msg := range conversation { currentWindow += tke(msg.content) }
      ... (reasoning tokens are computed and printed but not used below)
      if currentWindow > contextWindow {
        conversation = slices.Delete(conversation, 1, 2)
        continue
      }
      break
    }

`none` models the Go panic raised by `slices.Delete(conv, 1, 2)` when
`len(conv) < 2` (which the loop reaches when the remaining conversation still
exceeds the window but no message with index > 0 is left). -/
def evictAux (tke : String → Nat) (W : Nat) : Nat → List Message → Option (List Message)
  | fuel, conv =>
    if sumTokens tke conv > W then
      match fuel, conv with
      | Nat.succ fuel, a :: _ :: rest => evictAux tke W fuel (a :: rest)
      | _, _ => none
    else
      some conv

/-- The eviction loop, entered with fuel equal to the conversation length
(each iteration deletes one message, so the length bounds the number of
iterations; `evictLoop_eq` below shows the fuel is inessential and the
function satisfies the loop's natural unfolding equation). -/
def evictLoop (tke : String → Nat) (W : Nat) (conv : List Message) : Option (List Message) :=
  evictAux tke W conv.length conv

/-- `Agent.addToConversation` (part_001): appends the new messages, then runs
the eviction loop.  The `reasoning` fragments are joined and counted only for
the printed totals; they do not influence the eviction decision or the
returned conversation. -/
def addToConversation (tke : String → Nat) (W : Nat) (reasoning : List String)
    (conversation : List Message) (newMessages : List Message) : Option (List Message) :=
  evictLoop tke W (conversation ++ newMessages)

/-- Modelled from the spec: the `tiktoken` byte-pair tokenizer
(`foundation/tiktoken`, not part of the analysed sources) is specified only as
a deterministic, pure, non-negative count with `count("") = 0`; any such
function satisfies the specification, and the byte count is used as a concrete
instance for witnesses and counterexamples. -/
def tokenCount (s : String) : Nat := s.length

/-- The eviction loop satisfies the natural unfolding equation of the Go
`for` loop in `Agent.addToConversation`: while the token total exceeds the
window it deletes the message at index 1 and repeats; once a deletion is
demanded of a conversation shorter than two messages, `slices.Delete` panics
(`none`); otherwise the loop breaks with the conversation. -/
theorem evictLoop_eq (tke : String → Nat) (W : Nat) (conv : List Message) :
    evictLoop tke W conv =
      if sumTokens tke conv > W then
        match conv with
        | a :: _ :: rest => evictLoop tke W (a :: rest)
        | _ => none
      else some conv := by
  match conv with
  | [] => simp [evictLoop, evictAux]
  | [a] => simp [evictLoop, evictAux]
  | a :: b :: rest => simp [evictLoop, evictAux, List.length]

theorem evictAux_sum_le (tke : String → Nat) (W : Nat) :
    ∀ fuel conv conv', evictAux tke W fuel conv = some conv' → sumTokens tke conv' ≤ W := by
  intro fuel
  induction fuel with
  | zero =>
    intro conv conv' h
    unfold evictAux at h
    split at h
    · match conv with
      | [] => simp at h
      | [a] => simp at h
      | a :: b :: rest => simp at h
    · rename_i hle
      cases h
      omega
  | succ n ih =>
    intro conv conv' h
    unfold evictAux at h
    split at h
    · match conv with
      | [] => simp at h
      | [a] => simp at h
      | a :: b :: rest => exact ih (a :: rest) conv' h
    · rename_i hle
      cases h
      omega

theorem evictAux_head (tke : String → Nat) (W : Nat) :
    ∀ fuel conv conv', evictAux tke W fuel conv = some conv' → conv'.head? = conv.head? := by
  intro fuel
  induction fuel with
  | zero =>
    intro conv conv' h
    unfold evictAux at h
    split at h
    · match conv with
      | [] => simp at h
      | [a] => simp at h
      | a :: b :: rest => simp at h
    · cases h; rfl
  | succ n ih =>
    intro conv conv' h
    unfold evictAux at h
    split at h
    · match conv with
      | [] => simp at h
      | [a] => simp at h
      | a :: b :: rest => simpa using ih (a :: rest) conv' h
    · cases h; rfl

theorem evictAux_length_le (tke : String → Nat) (W : Nat) :
    ∀ fuel conv conv', evictAux tke W fuel conv = some conv' → conv'.length ≤ conv.length := by
  intro fuel
  induction fuel with
  | zero =>
    intro conv conv' h
    unfold evictAux at h
    split at h
    · match conv with
      | [] => simp at h
      | [a] => simp at h
      | a :: b :: rest => simp at h
    · cases h; exact Nat.le_refl _
  | succ n ih =>
    intro conv conv' h
    unfold evictAux at h
    split at h
    · match conv with
      | [] => simp at h
      | [a] => simp at h
      | a :: b :: rest =>
        have := ih (a :: rest) conv' h
        simp only [List.length] at this ⊢
        omega
    · cases h; exact Nat.le_refl _

/-- If the first message alone fits the window, the eviction loop cannot run
out of removable messages, hence never reaches the panicking deletion. -/
theorem evictAux_isSome (tke : String → Nat) (W : Nat) :
    ∀ fuel conv, conv.length ≤ fuel → (∀ m, conv.head? = some m → tke m.content ≤ W) →
      (evictAux tke W fuel conv).isSome := by
  intro fuel
  induction fuel with
  | zero =>
    intro conv hlen _
    have : conv = [] := List.eq_nil_of_length_eq_zero (Nat.le_zero.mp hlen)
    subst this
    simp [evictAux, sumTokens]
  | succ n ih =>
    intro conv hlen hhead
    unfold evictAux
    split
    · rename_i hgt
      match conv with
      | [] => simp [sumTokens] at hgt
      | [a] =>
        have := hhead a rfl
        simp [sumTokens] at hgt
        omega
      | a :: b :: rest =>
        apply ih (a :: rest)
        · simp only [List.length] at hlen ⊢
          omega
        · intro m hm
          simp only [List.head?] at hm
          cases hm
          exact hhead a rfl
    · simp

theorem nonSysTokens_le_sumTokens (tke : String → Nat) (conv : List Message) :
    nonSysTokens tke conv ≤ sumTokens tke conv := by
  induction conv with
  | nil => simp [nonSysTokens, sumTokens]
  | cons a t ih =>
    by_cases h : a.role = "system" <;>
      simp [nonSysTokens, sumTokens, List.filter_cons, h] at ih ⊢ <;>
      omega

/-- Conversation states reachable in `Agent.Run` (part_001): the conversation
starts as `[systemPrompt]`, user messages are appended directly, and
assistant messages are committed through `addToConversation` (which appends
and then runs the eviction loop). -/
inductive Reachable (tke : String → Nat) (W : Nat) (sys : Message) : List Message → Prop
  | init : Reachable tke W sys [sys]
  | user {conv : List Message} (m : Message) :
      Reachable tke W sys conv → Reachable tke W sys (conv ++ [m])
  | committed {conv conv' : List Message} (reasoning : List String) (new : List Message) :
      Reachable tke W sys conv →
      addToConversation tke W reasoning conv new = some conv' →
      Reachable tke W sys conv'

theorem Reachable.head_eq {tke : String → Nat} {W : Nat} {sys : Message}
    {conv : List Message} (h : Reachable tke W sys conv) : conv.head? = some sys := by
  induction h with
  | init => rfl
  | user m h ih =>
    rename_i conv0
    cases conv0 with
    | nil => simp at ih
    | cons a t => simpa using ih
  | committed reasoning new h heq ih =>
    rename_i conv0 conv'
    have h2 := evictAux_head tke W _ _ _ heq
    rw [h2]
    cases conv0 with
    | nil => simp at ih
    | cons a t => simpa using ih

/-- Example messages used by witnesses and counterexamples. -/
def sysEx : Message := { role := "system", content := "ss" }

def userEx : Message := { role := "user", content := "uu" }

def sysBig : Message := { role := "system", content := "aaaa" }

def userSmall : Message := { role := "user", content := "a" }

def sysX : Message := { role := "system", content := "x" }

def userY : Message := { role := "user", content := "y" }

/-- C1: for every conversation and window limit, if `addToConversation`'s
eviction loop settles (returns), then either the total token count of the
non-system messages is at most the window limit, or only the system message
plus one irremovable message remain.  (The code in fact guarantees the first
disjunct outright: the loop breaks only once the total over all messages is
within the window.) -/
theorem budget_settles_within_window (tke : String → Nat) (W : Nat)
    (reasoning : List String) (conv new conv' : List Message)
    (h : addToConversation tke W reasoning conv new = some conv') :
    nonSysTokens tke conv' ≤ W ∨ ∃ s m, conv' = [s, m] ∧ s.role = "system" :=
  Or.inl (le_trans (nonSysTokens_le_sumTokens tke conv') (evictAux_sum_le tke W _ _ _ h))

theorem budget_settles_within_window_witness :
    nonSysTokens tokenCount [sysEx, userEx] ≤ 10 ∨
      ∃ s m, ([sysEx, userEx] : List Message) = [s, m] ∧ s.role = "system" :=
  budget_settles_within_window tokenCount 10 [] [sysEx] [userEx] [sysEx, userEx] rfl

/-- C3: in every reachable conversation state the message at index 0 is the
system message; the eviction loop never changes the message at index 0; and a
single eviction step removes exactly the message at index 1, irrespective of
its role (FIFO by message order). -/
theorem system_head_permanent_and_fifo (tke : String → Nat) (W : Nat) (sys : Message) :
    (∀ conv, Reachable tke W sys conv → conv.head? = some sys) ∧
    (∀ conv conv', evictLoop tke W conv = some conv' → conv'.head? = conv.head?) ∧
    (∀ (a b : Message) (rest : List Message), deleteSecond (a :: b :: rest) = a :: rest) :=
  ⟨fun _ h => h.head_eq,
   fun _ conv' h => evictAux_head tke W _ _ conv' h,
   fun _ _ _ => rfl⟩

theorem system_head_permanent_and_fifo_witness :
    ([sysEx] : List Message).head? = some sysEx ∧
    ([sysEx, userEx] : List Message).head? = ([sysEx, userEx] : List Message).head? ∧
    deleteSecond [sysEx, userEx, userEx] = [sysEx, userEx] :=
  ⟨(system_head_permanent_and_fifo tokenCount 10 sysEx).1 [sysEx] Reachable.init,
   (system_head_permanent_and_fifo tokenCount 10 sysEx).2.1 [sysEx, userEx] [sysEx, userEx] rfl,
   (system_head_permanent_and_fifo tokenCount 10 sysEx).2.2 sysEx userEx [userEx]⟩

/-- C4 counterexample: the eviction loop's guard is
`currentWindow > contextWindow`, where `currentWindow` sums the content tokens
of ALL messages — the system message included — and does NOT add the reasoning
tokens (`totalTokens` is only printed).  Here the non-system tokens plus the
reasoning tokens are `1 + 0 ≤ 4`, so by the claim no message may be removed;
yet the code removes the user message because the system message's 4 tokens
push the total over the limit: `4 + 1 > 4`. -/
theorem evict_condition_counterexample :
    nonSysTokens tokenCount [sysBig, userSmall]
        + tokenCount (String.intercalate " " ([] : List String)) ≤ 4 ∧
    addToConversation tokenCount 4 [] [sysBig] [userSmall] = some [sysBig] :=
  ⟨by decide, rfl⟩

/-- C4 (amended): the eviction loop removes a message if and only if the sum
of the content tokens of all messages — the system message included, the
current turn's reasoning tokens excluded — exceeds the window limit; it
repeats removal of the message at index 1 until that sum is at or below the
limit (removal of the last remaining message panics rather than stopping);
the reasoning fragments never influence the result. -/
theorem evict_condition_amended (tke : String → Nat) (W : Nat) :
    (∀ conv, ¬ sumTokens tke conv > W → evictLoop tke W conv = some conv) ∧
    (∀ (a b : Message) (rest : List Message), sumTokens tke (a :: b :: rest) > W →
        evictLoop tke W (a :: b :: rest) = evictLoop tke W (deleteSecond (a :: b :: rest))) ∧
    (∀ conv conv', evictLoop tke W conv = some conv' → sumTokens tke conv' ≤ W) ∧
    (∀ (r₁ r₂ : List String) conv new,
        addToConversation tke W r₁ conv new = addToConversation tke W r₂ conv new) := by
  refine ⟨fun conv h => ?_, fun a b rest h => ?_, fun conv conv' h => ?_, fun _ _ _ _ => rfl⟩
  · rw [evictLoop_eq, if_neg h]
  · rw [evictLoop_eq, if_pos h]; rfl
  · exact evictAux_sum_le tke W _ _ _ h

theorem evict_condition_amended_witness :
    evictLoop tokenCount 10 [sysEx] = some [sysEx] ∧
    evictLoop tokenCount 0 [sysX, userY] = evictLoop tokenCount 0 (deleteSecond [sysX, userY]) ∧
    sumTokens tokenCount [sysEx, userEx] ≤ 10 ∧
    addToConversation tokenCount 10 ["r"] [sysEx] [userEx]
      = addToConversation tokenCount 10 [] [sysEx] [userEx] :=
  ⟨(evict_condition_amended tokenCount 10).1 [sysEx] (by decide),
   (evict_condition_amended tokenCount 0).2.1 sysX userY [] (by decide),
   (evict_condition_amended tokenCount 10).2.2.1 [sysEx, userEx] [sysEx, userEx] rfl,
   (evict_condition_amended tokenCount 10).2.2.2 ["r"] [] [sysEx] [userEx]⟩

/-- C9 counterexample: the budget manager CAN error.  With window limit 0 the
loop evicts the only non-system message, is still over the limit, and then
executes `slices.Delete(conversation, 1, 2)` on a one-element slice — a Go
panic (modelled by `none`).  (Reachable in the program with
`OLLAMA_CONTEXT_LENGTH` set below the system prompt's token count.) -/
theorem evict_panics_counterexample :
    addToConversation tokenCount 0 [] [sysX] [userY] = none := rfl

/-- C9 (amended): the eviction loop always terminates, each iteration either
strictly removes one message or stops, and it never errors provided the first
(system) message on its own fits the window limit; if the conversation is
still over the limit when only the irremovable first message remains, the
deletion panics instead of stopping. -/
theorem evict_termination_amended (tke : String → Nat) (W : Nat) :
    (∀ conv, (∀ m, conv.head? = some m → tke m.content ≤ W) →
        (evictLoop tke W conv).isSome) ∧
    (∀ conv conv', evictLoop tke W conv = some conv' → conv'.length ≤ conv.length) ∧
    (∀ (a b : Message) (rest : List Message), sumTokens tke (a :: b :: rest) > W →
        evictLoop tke W (a :: b :: rest) = evictLoop tke W (a :: rest)) := by
  refine ⟨fun conv h => evictAux_isSome tke W _ conv (Nat.le_refl _) h,
          fun conv conv' h => evictAux_length_le tke W _ _ _ h,
          fun a b rest h => ?_⟩
  rw [evictLoop_eq, if_pos h]

theorem evict_termination_amended_witness :
    (evictLoop tokenCount 10 [sysEx, userEx]).isSome ∧
    ([sysEx, userEx] : List Message).length ≤ ([sysEx, userEx] : List Message).length ∧
    evictLoop tokenCount 0 [sysX, userY] = evictLoop tokenCount 0 [sysX] :=
  ⟨(evict_termination_amended tokenCount 10).1 [sysEx, userEx]
      (by intro m hm; cases hm; decide),
   (evict_termination_amended tokenCount 10).2.1 [sysEx, userEx] [sysEx, userEx] rfl,
   (evict_termination_amended tokenCount 0).2.2 sysX userY [] (by decide)⟩

/-! ## Per-turn stream classification (`Agent.Run`, part_001 lines 186-232 and
step4 lines 256-295, identical logic in the content/reasoning branches) -/

/-- The per-turn accumulator state of `Agent.Run`: the two reasoning flags,
the visible-content fragments (`chunks`) and the reasoning fragments
(`reasonContent`). -/
structure TurnState where
  reasonThinking : Bool := false
  contentThinking : Bool := false
  chunks : List String := []
  reasonContent : List String := []
  deriving Repr, DecidableEq

/-- The handler of the `resp.Choices[0].Delta.Content != ""` case of
`Agent.Run`: first the explicit-reasoning flag is cleared, then a delta equal
to `"<think>"` / `"</think>"` sets / clears the inline-reasoning flag and is
dropped (`continue`), and any other delta is routed to `reasonContent` when
the inline flag is set, to `chunks` otherwise.  (Printing is elided.) -/
def processContent (st : TurnState) (c : String) : TurnState :=
  let st1 := if st.reasonThinking then { st with reasonThinking := false } else st
  if c = "<think>" then { st1 with contentThinking := true }
  else if c = "</think>" then { st1 with contentThinking := false }
  else if st1.contentThinking then { st1 with reasonContent := st1.reasonContent ++ [c] }
  else { st1 with chunks := st1.chunks ++ [c] }

/-- Folding a whole stream of content deltas through the handler. -/
def processStream (st : TurnState) (deltas : List String) : TurnState :=
  deltas.foldl processContent st

/-- C5: a content delta exactly equal to an inline reasoning marker only
changes the inside-inline-reasoning flag (`"<think>"` sets it, `"</think>"`
clears it) and is neither emitted nor accumulated; any other delta goes to
the reasoning accumulator while the flag is set and to the visible-content
accumulator while it is clear; in particular the stream
`["<think>", "secret", "</think>", "visible"]` yields visible accumulator
`["visible"]` and reasoning accumulator `["secret"]`.  (Every content delta,
marker or not, also clears the separate explicit-reasoning-channel flag.) -/
theorem think_markers_toggle_only :
    (∀ st : TurnState, processContent st "<think>" =
        { st with reasonThinking := false, contentThinking := true }) ∧
    (∀ st : TurnState, processContent st "</think>" =
        { st with reasonThinking := false, contentThinking := false }) ∧
    (∀ (st : TurnState) (c : String), c ≠ "<think>" → c ≠ "</think>" →
        st.contentThinking = true →
        processContent st c =
          { st with reasonThinking := false, reasonContent := st.reasonContent ++ [c] }) ∧
    (∀ (st : TurnState) (c : String), c ≠ "<think>" → c ≠ "</think>" →
        st.contentThinking = false →
        processContent st c =
          { st with reasonThinking := false, chunks := st.chunks ++ [c] }) ∧
    (processStream {} ["<think>", "secret", "</think>", "visible"]).chunks = ["visible"] ∧
    (processStream {} ["<think>", "secret", "</think>", "visible"]).reasonContent
      = ["secret"] := by
  refine ⟨fun st => ?_, fun st => ?_, fun st c h1 h2 h3 => ?_, fun st c h1 h2 h3 => ?_,
          rfl, rfl⟩ <;>
    rcases st with ⟨rt, ct, ch, rc⟩ <;> cases rt <;>
    simp_all [processContent]

theorem think_markers_toggle_only_witness :
    processContent {} "<think>" = { contentThinking := true } ∧
    processContent {} "</think>" = ({} : TurnState) ∧
    processContent { contentThinking := true } "secret"
      = { contentThinking := true, reasonContent := ["secret"] } ∧
    processContent {} "visible" = { chunks := ["visible"] } :=
  ⟨think_markers_toggle_only.1 {},
   think_markers_toggle_only.2.1 {},
   think_markers_toggle_only.2.2.1 { contentThinking := true } "secret"
     (by decide) (by decide) rfl,
   think_markers_toggle_only.2.2.2.1 {} "visible" (by decide) (by decide) rfl⟩

/-! ## Turn finalization (part_001 lines 236-253, step4 lines 302-314) -/

/-- `strings.TrimLeft(content, "\n")`: strip leading line breaks. -/
def trimLeftNL (s : String) : String :=
  String.mk (s.toList.dropWhile fun ch => ch = '\n')

/-- `Agent.addToConversation` of step4 (lines 345-374): appends the new
messages and computes per-role token totals; the totals are only printed, so
the returned conversation is the appended one.  See `tokenTotals4` for the
computed totals. -/
def addToConversation4 (tke : String → Nat) (reasoning : List String)
    (conversation : List Message) (d : List Message) : List Message :=
  conversation ++ d

/-- The per-role totals `(sysTokens, inputTokens, outputTokens, reasonTokens)`
computed (and printed) by step4's `addToConversation`; exposed for
observability only.  Note step4 joins the reasoning fragments with `""`. -/
def tokenTotals4 (tke : String → Nat) (reasoning : List String)
    (conversation : List Message) : Nat × Nat × Nat × Nat :=
  (((conversation.filter fun m => m.role = "system").map fun m => tke m.content).sum,
   ((conversation.filter fun m => m.role = "user" ∨ m.role = "tool").map
      fun m => tke m.content).sum,
   ((conversation.filter fun m => m.role = "assistant").map fun m => tke m.content).sum,
   tke (String.intercalate "" reasoning))

/-- Stream-termination handling in step4's `Agent.Run` (lines 302-314):

    if !inToolCall && len(chunks) > 0 {
      content := strings.Join(chunks, " ")
      content = strings.TrimLeft(content, "\n")
      if content != "" { conversation = a.addToConversation(reasonContent,
        conversation, client.D{"role": "assistant", "content": content}) }
    }
-/
def finalizeTurn4 (tke : String → Nat) (inToolCall : Bool)
    (chunks reasoning : List String) (conv : List Message) : List Message :=
  if inToolCall = false ∧ chunks ≠ [] then
    let content := trimLeftNL (String.intercalate " " chunks)
    if content ≠ "" then
      addToConversation4 tke reasoning conv [{ role := "assistant", content := content }]
    else conv
  else conv

/-- Stream-termination handling in part_001's `Agent.Run` (lines 236-253):
identical, except that there is no tool dispatch (no `inToolCall`) and
`addToConversation` is the evicting budget manager. -/
def finalizeTurn1 (tke : String → Nat) (W : Nat)
    (chunks reasoning : List String) (conv : List Message) : Option (List Message) :=
  if chunks ≠ [] then
    let content := trimLeftNL (String.intercalate " " chunks)
    if content ≠ "" then
      addToConversation tke W reasoning conv [{ role := "assistant", content := content }]
    else some conv
  else some conv

/-- C8: on stream termination, if visible content was accumulated and no tool
dispatch is pending, the fragments are joined, leading line breaks stripped,
and — iff the result is non-empty — exactly one assistant message with that
content is appended, after which the budget manager
(`addToConversation`) runs; otherwise the conversation is unchanged.  Stated
for the step4 loop and, in the last conjunct, for the part_001 loop whose
budget manager also evicts. -/
theorem finalize_appends_assistant (tke : String → Nat) (W : Nat)
    (chunks reasoning : List String) (conv : List Message) :
    (chunks ≠ [] → trimLeftNL (String.intercalate " " chunks) ≠ "" →
      finalizeTurn4 tke false chunks reasoning conv =
        addToConversation4 tke reasoning conv
          [{ role := "assistant", content := trimLeftNL (String.intercalate " " chunks) }] ∧
      finalizeTurn4 tke false chunks reasoning conv =
        conv ++ [{ role := "assistant",
                   content := trimLeftNL (String.intercalate " " chunks) }]) ∧
    (trimLeftNL (String.intercalate " " chunks) = "" →
      finalizeTurn4 tke false chunks reasoning conv = conv) ∧
    (finalizeTurn4 tke true chunks reasoning conv = conv) ∧
    (chunks ≠ [] → trimLeftNL (String.intercalate " " chunks) ≠ "" →
      finalizeTurn1 tke W chunks reasoning conv =
        addToConversation tke W reasoning conv
          [{ role := "assistant",
             content := trimLeftNL (String.intercalate " " chunks) }]) := by
  refine ⟨fun hne hc => ⟨?_, ?_⟩, fun hc => ?_, ?_, fun hne hc => ?_⟩
  · simp [finalizeTurn4, addToConversation4, hne, hc]
  · simp [finalizeTurn4, addToConversation4, hne, hc]
  · simp [finalizeTurn4, hc]
  · simp [finalizeTurn4]
  · simp [finalizeTurn1, hne, hc]

theorem finalize_appends_assistant_witness :
    (finalizeTurn4 tokenCount false ["hello"] [] [sysEx] =
        addToConversation4 tokenCount [] [sysEx] [{ role := "assistant", content := "hello" }] ∧
      finalizeTurn4 tokenCount false ["hello"] [] [sysEx] =
        [sysEx] ++ [{ role := "assistant", content := "hello" }]) ∧
    finalizeTurn4 tokenCount true ["hello"] [] [sysEx] = [sysEx] ∧
    finalizeTurn1 tokenCount 10 ["hello"] [] [sysEx] =
      addToConversation tokenCount 10 [] [sysEx]
        [{ role := "assistant", content := "hello" }] := by
  have h := finalize_appends_assistant tokenCount 10 ["hello"] [] [sysEx]
  have e : trimLeftNL (String.intercalate " " ["hello"]) = "hello" := rfl
  refine ⟨?_, h.2.2.1, ?_⟩
  · have := h.1 (by decide) (by rw [e]; decide)
    rwa [e] at this
  · have := h.2.2.2 (by decide) (by rw [e]; decide)
    rwa [e] at this

/-! ## Tool calls and duplicate detection (step4) -/

/-- `client.ToolCall`'s `Function` payload (`Name`, `Arguments`); the wire
type lives in the client library, its shape is fixed by its uses in
`main.go`. -/
structure ToolFunction where
  name : String
  arguments : Args
  deriving Repr, DecidableEq

structure ToolCall where
  function : ToolFunction
  deriving Repr, DecidableEq

/-- `toolErrorResponse` (step4 lines 434-463): a `role: tool` message whose
content is the `encoding/json` serialization of
`{status: "FAILED", data: {error: <message>}}` (serialization external, the
result is kept structured). -/
def toolErrorResponse (toolName : String) (errMsg : String) : Message :=
  { role := "tool", name := toolName, status := "FAILED", data := [("error", .str errMsg)] }

/-- `toolSuccessResponse` (step4 lines 403-431): `{status: "SUCCESS", data}`.
The Go variadic key/value pairs arrive here already assembled; the
`json.Marshal`-failure fallback branch is dead for the value shapes the tools
pass (strings and string lists are always marshalable). -/
def toolSuccessResponse (toolName : String) (values : List (String × GoValue)) : Message :=
  { role := "tool", name := toolName, status := "SUCCESS", data := values }

/-- The error text of the synthesized duplicate-tool-call response. -/
def dupCallMessage : String :=
  "data already provided in a previous response, please review the conversation history"

/-- The comparison loop of `compareToolCalls` (step4 lines 381-400): batches
are "the same" when they have equal length and pairwise equal function names
and `fmt.Sprintf("%v", arguments)` renderings. -/
def sameCalls (last current : List ToolCall) : Bool :=
  last.length == current.length &&
    (List.zip last current).all fun p =>
      p.1.function.name == p.2.function.name &&
        renderArgs p.1.function.arguments == renderArgs p.2.function.arguments

/-- `compareToolCalls`: `none` is the empty `client.D{}` ("not a duplicate");
on a duplicate, the synthesized FAILED response for `current[0]`.  (For two
empty batches Go would panic indexing `current[0]`; `Agent.Run` only reaches
this call with a non-empty current batch, `len(...ToolCalls) > 0`.) -/
def compareToolCalls (last current : List ToolCall) : Option Message :=
  if sameCalls last current then
    match current with
    | c :: _ => some (toolErrorResponse c.function.name dupCallMessage)
    | [] => none
  else none

/-! ## Filesystem model and the four tools

The `os` package calls are external; the filesystem is modelled as a flat
path-to-content map, read errors as absent paths.  `go/parser` and
`go/format` are abstract function parameters. -/

abbrev FS := List (String × String)

def FS.read (fs : FS) (path : String) : Option String :=
  (fs.find? fun p => p.1 == path).map fun p => p.2

def FS.write (fs : FS) (path content : String) : FS :=
  if (fs.find? fun p => p.1 == path).isSome then
    fs.map fun p => if p.1 == path then (p.1, content) else p
  else
    fs ++ [(path, content)]

def leadMatches : List Char → List Char → Bool
  | [], _ => true
  | _ :: _, [] => false
  | a :: as, b :: bs => a == b && leadMatches as bs

def charsContain (sub : List Char) : List Char → Bool
  | [] => leadMatches sub []
  | b :: bs => leadMatches sub (b :: bs) || charsContain sub bs

/-- `strings.Contains(s, sub)`. -/
def strContains (s sub : String) : Bool :=
  charsContain sub.toList s.toList

/-- `strings.HasSuffix(s, suffix)`. -/
def strEndsWith (s suffix : String) : Bool :=
  leadMatches suffix.toList.reverse s.toList.reverse

/-- `ReadFile.Call` (step4 lines 502-514).  `none` models the Go panic of
`arguments["path"].(string)` when `path` is missing or not a string (a `nil`
or non-string value is `!= ""`, so the type assertion runs and fails);
otherwise a FAILED response on read error, a SUCCESS response with the file
contents on success. -/
def ReadFile.Call (fs : FS) (args : Args) : Option Message :=
  match lookupArg args "path" with
  | some (.str s) =>
      let dir := if s = "" then "." else s
      some (match fs.read dir with
        | none => toolErrorResponse "read_file"
            ("open " ++ dir ++ ": no such file or directory")
        | some content => toolSuccessResponse "read_file" [("file_contents", .str content)])
  | _ => none

/-- One visited entry of the `filepath.WalkDir` traversal in
`ListFiles.Call`: the path relative to the walked directory and whether it is
a directory.  The traversal itself is `os`-level; the closure's logic is
embedded in `listFilesVisit`. -/
structure WalkEntry where
  relPath : String
  isDir : Bool
  deriving Repr, DecidableEq

def skipDirNames : List String := ["zarf", "vendor", ".venv", ".idea", ".vscode", ".git"]

/-- The body of the closure passed to `filepath.WalkDir` (step4 lines
564-607), per visited entry: filtered path components are skipped, `"."` is
skipped, directories are collected with a trailing slash, and for a regular
file the code evaluates `arguments["extension"] != ""` and — when that holds —
`arguments["extension"].(string)`: if the `extension` key is absent (`nil`)
or holds a non-string, that type assertion PANICS (`none`), although the
tool's own schema documents `extension` as optional. -/
def listFilesVisit (args : Args) (files : List String) (entry : WalkEntry) :
    Option (List String) :=
  if skipDirNames.any fun sub => strContains entry.relPath sub then some files
  else if entry.relPath = "." then some files
  else if entry.isDir then some (files ++ [entry.relPath ++ "/"])
  else match lookupArg args "extension" with
    | some (.str e) =>
        if e = "" then some (files ++ [entry.relPath])
        else if strEndsWith entry.relPath e then some (files ++ [entry.relPath])
        else some files
    | _ => none

/-- `ListFiles.Call` (step4 lines 557-614).  `entries` is the os-level
traversal of the requested directory (in `WalkDir`'s order) and `walkErr` an
os-level traversal error; the repository's own logic — argument extraction,
per-entry filtering, the error branch — is explicit.  `none` models a Go
panic (bad `path` argument, or the `extension` assertion inside the
closure). -/
def ListFiles.Call (entries : List WalkEntry) (walkErr : Option String) (args : Args) :
    Option Message :=
  match lookupArg args "path" with
  | some (.str _) =>
      match entries.foldlM (listFilesVisit args) [] with
      | none => none
      | some files =>
          some (match walkErr with
            | some e => toolErrorResponse "list_files" e
            | none => toolSuccessResponse "list_files" [("files", .strs files)])
  | _ => none

/-- `CreateFile.Call` (step4 lines 653-672): fails when the target exists
(the `os.Stat` / `!os.IsNotExist` check), otherwise creates the empty file
(`os.MkdirAll` and the create-error branch are os-level).  `none` models the
panic of `arguments["path"].(string)`. -/
def CreateFile.Call (fs : FS) (args : Args) : Option (Message × FS) :=
  match lookupArg args "path" with
  | some (.str filePath) =>
      if (fs.read filePath).isSome then
        some (toolErrorResponse "create_file" "file already exists", fs)
      else
        some (toolSuccessResponse "create_file"
                [("message", .str "File created successfully")],
              fs.write filePath "")
  | _ => none

def isSpaceChar (c : Char) : Bool :=
  c == ' ' || c == '\t' || c == '\n' || c == '\r'

/-- `strings.TrimSpace`: strip leading and trailing whitespace (Go also trims
the rarer Unicode space characters; the tool arguments only carry ASCII). -/
def goTrimSpace (s : String) : String :=
  String.mk (((s.toList.dropWhile isSpaceChar).reverse.dropWhile isSpaceChar).reverse)

def splitCharsOnNL : List Char → List (List Char)
  | [] => [[]]
  | c :: cs =>
      let r := splitCharsOnNL cs
      if c = '\n' then [] :: r
      else
        match r with
        | h :: t => (c :: h) :: t
        | [] => [[c]]

/-- `strings.Split(s, "\n")`: the lines of `s`, where the empty string yields
`[""]` exactly as in Go. -/
def splitLines (s : String) : List String :=
  (splitCharsOnNL s.toList).map String.mk

/-- The line edit of `GoCodeEditor.Call` (step4 lines 741-761), applied to the
file split on `"\n"`, with `n` the 1-based line number already checked to be
in range: `add` inserts before line `n`, `replace` overwrites line `n`,
`delete` removes line `n` (a single-line file becomes `[""]`); any other
(trimmed) change type is unsupported (`none`). -/
def editLines (lines : List String) (n : Nat) (typeChange lineChange : String) :
    Option (List String) :=
  if typeChange = "add" then
    some (lines.take (n - 1) ++ [lineChange] ++ lines.drop (n - 1))
  else if typeChange = "replace" then
    some (lines.set (n - 1) lineChange)
  else if typeChange = "delete" then
    some (if lines.length = 1 then [""] else lines.take (n - 1) ++ lines.drop n)
  else none

/-- The success message of `GoCodeEditor.Call` (step4 lines 780-790). -/
def editAction (typeChange : String) (lineNumber : Int) : String :=
  if typeChange = "add" then "Added line at position " ++ toString lineNumber
  else if typeChange = "replace" then "Replaced line " ++ toString lineNumber
  else "Deleted line " ++ toString lineNumber

/-- The body of `GoCodeEditor.Call` after its four argument extractions
(`typeChange` and `lineChange` arrive already trimmed): read the file, check
the line range, apply the edit, parse the modified content and only then
format and write it. -/
def editorBody (goParse : String → Bool) (fmtSource : String → Option String)
    (fs : FS) (path : String) (lineNumber : Int) (typeChange lineChange : String) :
    Message × FS :=
  match fs.read path with
  | none => (toolErrorResponse "golang_code_editor"
      ("open " ++ path ++ ": no such file or directory"), fs)
  | some content =>
      let lines := splitLines content
      if lineNumber < 1 ∨ lineNumber > (lines.length : Int) then
        (toolErrorResponse "golang_code_editor"
          ("line number " ++ toString lineNumber ++ " is out of range (1-"
            ++ toString lines.length ++ ")"), fs)
      else
        match editLines lines lineNumber.toNat typeChange lineChange with
        | none => (toolErrorResponse "golang_code_editor"
            ("unsupported change type: " ++ typeChange
              ++ ", please inform the user"), fs)
        | some lines1 =>
            let modifiedContent := String.intercalate "\n" lines1
            if goParse modifiedContent then
              (toolSuccessResponse "golang_code_editor"
                 [("message", .str (editAction typeChange lineNumber))],
               fs.write path ((fmtSource modifiedContent).getD modifiedContent))
            else
              (toolErrorResponse "golang_code_editor"
                "syntax error after modification, please inform the user", fs)

/-- `GoCodeEditor.Call` (step4 lines 723-791).  `goParse` abstracts
`parser.ParseFile` succeeding on the given source, `fmtSource` abstracts
`format.Source` (`none` = formatting error, in which case the unformatted
content is written).  `none` models the Go panics of the four type assertions
on the arguments.  The `os.WriteFile` error branch is os-level (the pure
write is total); the parser's error text inside the syntax-error message is
likewise external and abbreviated. -/
def GoCodeEditor.Call (goParse : String → Bool) (fmtSource : String → Option String)
    (fs : FS) (args : Args) : Option (Message × FS) :=
  match lookupArg args "path", lookupArg args "line_number",
        lookupArg args "type_change", lookupArg args "line_change" with
  | some (.str path), some (.num lineNumber), some (.str tc), some (.str lc) =>
      some (editorBody goParse fmtSource fs path lineNumber
              (goTrimSpace tc) (goTrimSpace lc))
  | _, _, _, _ => none

/-! ## The tool registry and dispatch (step4 `Agent.callTools`, `Agent.Run`) -/

/-- A registered capability: arguments and the filesystem in, a tool-response
message and the filesystem out; `none` models a Go panic escaping the
tool. -/
abbrev ToolImpl := Args → FS → Option (Message × FS)

/-- `Agent.callTools` (step4 lines 322-340): iterate the batch in the order
the model requested, skip names missing from the registry (`continue`),
invoke each registered tool and collect one response per invocation.  The
final `List String` component is the dispatch trace — the invoked tool names
in invocation order — recording the side-effect order; `none` propagates a
tool panic. -/
def callTools (tools : String → Option ToolImpl) :
    List ToolCall → FS → Option (List Message × FS × List String)
  | [], fs => some ([], fs, [])
  | tc :: rest, fs =>
      match tools tc.function.name with
      | none => callTools tools rest fs
      | some impl =>
          match impl tc.function.arguments fs with
          | none => none
          | some (msg, fs1) =>
              match callTools tools rest fs1 with
              | none => none
              | some (msgs, fs2, trace) =>
                  some (msg :: msgs, fs2, tc.function.name :: trace)

/-- The registry built in `NewAgent` (step4 lines 101-142): the four tools
keyed by name.  `list_files` is given the flat traversal of the pure
filesystem (every stored path as a non-directory entry) with no traversal
error; `read_file`'s call leaves the filesystem unchanged. -/
def step4Tools (goParse : String → Bool) (fmtSource : String → Option String) :
    String → Option ToolImpl := fun name =>
  if name = "read_file" then
    some fun args fs => ( ReadFile.Call fs args).map fun m => (m, fs)
  else if name = "list_files" then
    some fun args fs =>
      ( ListFiles.Call (fs.map fun p => ⟨p.1, false⟩) none args).map fun m => (m, fs)
  else if name = "create_file" then
    some fun args fs => CreateFile.Call fs args
  else if name = "golang_code_editor" then
    some fun args fs => GoCodeEditor.Call goParse fmtSource fs args
  else none

/-- The mutable state of step4's `Agent.Run` that the tool-call branch
touches. -/
structure RunToolState where
  conversation : List Message
  lastToolCall : List ToolCall
  inToolCall : Bool
  fs : FS
  deriving Repr, DecidableEq

/-- The `len(resp.Choices[0].Delta.ToolCalls) > 0` case of step4's
`Agent.Run` (lines 235-250): compare against the last batch; on a duplicate
append the single synthesized response and set `inToolCall` (no dispatch);
otherwise dispatch the batch via `callTools` and — when at least one response
was collected — append the responses, remember the batch and set
`inToolCall`.  Returns the new state and the dispatch trace; `none`
propagates a tool panic. -/
def toolCallStep (tke : String → Nat) (tools : String → Option ToolImpl)
    (reasoning : List String) (st : RunToolState) (batch : List ToolCall) :
    Option (RunToolState × List String) :=
  match compareToolCalls st.lastToolCall batch with
  | some result =>
      some ({ st with
                conversation := addToConversation4 tke reasoning st.conversation [result],
                inToolCall := true }, [])
  | none =>
      match callTools tools batch st.fs with
      | none => none
      | some (results, fs1, trace) =>
          if results.isEmpty then
            some ({ st with fs := fs1 }, trace)
          else
            some ({ conversation := addToConversation4 tke reasoning st.conversation results,
                    lastToolCall := batch,
                    inToolCall := true,
                    fs := fs1 }, trace)

theorem callTools_spec (tools : String → Option ToolImpl) :
    ∀ (batch : List ToolCall) (fs : FS) (results : List Message) (fs' : FS)
      (trace : List String),
      callTools tools batch fs = some (results, fs', trace) →
      trace = ((batch.filter fun tc => (tools tc.function.name).isSome).map
          fun tc => tc.function.name) ∧
      results.length = (batch.filter fun tc => (tools tc.function.name).isSome).length := by
  intro batch
  induction batch with
  | nil =>
    intro fs results fs' trace h
    simp only [callTools, Option.some.injEq, Prod.mk.injEq] at h
    obtain ⟨h1, _, h3⟩ := h
    subst h1
    subst h3
    simp
  | cons tc rest ih =>
    intro fs results fs' trace h
    cases htool : tools tc.function.name with
    | none =>
      simp only [callTools, htool] at h
      have hr := ih _ _ _ _ h
      simp [List.filter_cons, htool, hr.1, hr.2]
    | some impl =>
      cases himpl : impl tc.function.arguments fs with
      | none => simp [callTools, htool, himpl] at h
      | some pr =>
        obtain ⟨msg, fs1⟩ := pr
        cases hrec : callTools tools rest fs1 with
        | none => simp [callTools, htool, himpl, hrec] at h
        | some out =>
          obtain ⟨msgs, fs2, tr⟩ := out
          simp only [callTools, htool, himpl, hrec, Option.some.injEq, Prod.mk.injEq] at h
          obtain ⟨h1, _, h3⟩ := h
          subst h1
          subst h3
          have hr := ih _ _ _ _ hrec
          simp [List.filter_cons, htool, hr.1, hr.2]

theorem callTools_append (tools : String → Option ToolImpl) :
    ∀ (b₁ b₂ : List ToolCall) (fs : FS),
      callTools tools (b₁ ++ b₂) fs =
        (callTools tools b₁ fs).bind fun r =>
          (callTools tools b₂ r.2.1).map fun r₂ => (r.1 ++ r₂.1, r₂.2.1, r.2.2 ++ r₂.2.2) := by
  intro b₁
  induction b₁ with
  | nil =>
    intro b₂ fs
    cases hb : callTools tools b₂ fs with
    | none => simp [callTools, hb]
    | some out =>
      obtain ⟨msgs, fs2, tr⟩ := out
      simp [callTools, hb]
  | cons tc rest ih =>
    intro b₂ fs
    cases htool : tools tc.function.name with
    | none =>
      simp only [List.cons_append, callTools, htool]
      exact ih b₂ fs
    | some impl =>
      cases himpl : impl tc.function.arguments fs with
      | none => simp [List.cons_append, callTools, htool, himpl]
      | some pr =>
        obtain ⟨msg, fs1⟩ := pr
        simp only [List.cons_append, callTools, htool, himpl, List.append_eq]
        rw [ih b₂ fs1]
        cases hrec : callTools tools rest fs1 with
        | none => simp
        | some out =>
          obtain ⟨msgs, fs2, tr⟩ := out
          cases hb : callTools tools b₂ fs2 <;> simp [hb]

/-! ## Concrete instances used by witnesses and counterexamples -/

/-- A parser oracle accepting everything (stands for `parser.ParseFile`
succeeding). -/
def goParseAll : String → Bool := fun _ => true

/-- A formatter oracle that always errors, making `format.Source` fall back
to the unformatted content. -/
def fmtSourceNone : String → Option String := fun _ => none

def callNum : ToolCall := ⟨⟨"read_file", [("x", .num 1)]⟩⟩

def callStr : ToolCall := ⟨⟨"read_file", [("x", .str "1")]⟩⟩

def unknownCall : ToolCall := ⟨⟨"unknown_tool", []⟩⟩

def readCall : ToolCall := ⟨⟨"read_file", [("path", .str "f.txt")]⟩⟩

def fsEx : FS := [("f.txt", "hi")]

/-- C2 counterexample: the two batches `[read_file {x: 1}]` (the number one)
and `[read_file {x: "1"}]` (the string) differ in their argument values, so
by the claim every call of the current batch must be dispatched; but
`compareToolCalls` compares `fmt.Sprintf("%v", arguments)` strings, both
render `map[x:1]`, and the orchestrator takes the duplicate branch: nothing
is dispatched (empty trace) and the synthesized FAILED response is appended.
Moreover a differing batch whose only call names an unregistered tool is NOT
remembered: `callTools` collects no response, so `lastToolCall` keeps its old
value (here `[]` instead of the batch). -/
theorem duplicate_batch_counterexample :
    callNum.function.arguments ≠ callStr.function.arguments ∧
    toolCallStep tokenCount (step4Tools goParseAll fmtSourceNone) []
        ⟨[sysEx], [callNum], false, []⟩ [callStr]
      = some (⟨[sysEx, toolErrorResponse "read_file" dupCallMessage], [callNum], true, []⟩,
              []) ∧
    toolCallStep tokenCount (step4Tools goParseAll fmtSourceNone) []
        ⟨[sysEx], [], false, []⟩ [unknownCall]
      = some (⟨[sysEx], [], false, []⟩, []) :=
  ⟨by decide, rfl, rfl⟩

/-- C2 (amended): when the current batch has the same length and pairwise
equal function names and argument `%v` renderings as the previous batch, the
orchestrator invokes no tool (empty dispatch trace) and appends the single
synthesized FAILED tool response whose error text is "data already provided
in a previous response, please review the conversation history" (carrying the
claimed message as its lead); when the batches differ under that comparison,
the batch is dispatched in order and — if at least one response was collected
— the responses are appended and the batch is remembered for the next
duplicate check, while a batch yielding no response (all names unregistered)
leaves the remembered batch unchanged. -/
theorem duplicate_batch_amended (tke : String → Nat) (tools : String → Option ToolImpl)
    (reasoning : List String) :
    (∀ (st : RunToolState) (c : ToolCall) (rest : List ToolCall),
        sameCalls st.lastToolCall (c :: rest) = true →
        toolCallStep tke tools reasoning st (c :: rest) =
          some ({ st with
                    conversation := st.conversation
                      ++ [toolErrorResponse c.function.name dupCallMessage],
                    inToolCall := true }, [])) ∧
    (∀ (st : RunToolState) (batch : List ToolCall) (results : List Message)
        (fs1 : FS) (trace : List String),
        sameCalls st.lastToolCall batch = false →
        callTools tools batch st.fs = some (results, fs1, trace) →
        results ≠ [] →
        toolCallStep tke tools reasoning st batch =
          some ({ conversation := st.conversation ++ results,
                  lastToolCall := batch, inToolCall := true, fs := fs1 }, trace)) ∧
    (∀ (st : RunToolState) (batch : List ToolCall) (fs1 : FS) (trace : List String),
        sameCalls st.lastToolCall batch = false →
        callTools tools batch st.fs = some ([], fs1, trace) →
        toolCallStep tke tools reasoning st batch = some ({ st with fs := fs1 }, trace)) := by
  refine ⟨fun st c rest h => ?_, fun st batch results fs1 trace h hcall hne => ?_,
          fun st batch fs1 trace h hcall => ?_⟩
  · simp [toolCallStep, compareToolCalls, h, addToConversation4]
  · simp [toolCallStep, compareToolCalls, h, hcall, addToConversation4, hne]
  · simp [toolCallStep, compareToolCalls, h, hcall]

theorem duplicate_batch_amended_witness :
    toolCallStep tokenCount (step4Tools goParseAll fmtSourceNone) []
        ⟨[sysEx], [callNum], false, []⟩ [callNum]
      = some (⟨[sysEx, toolErrorResponse "read_file" dupCallMessage], [callNum], true, []⟩,
              []) ∧
    toolCallStep tokenCount (step4Tools goParseAll fmtSourceNone) []
        ⟨[sysEx], [], false, fsEx⟩ [readCall]
      = some (⟨[sysEx, toolSuccessResponse "read_file" [("file_contents", .str "hi")]],
               [readCall], true, fsEx⟩, ["read_file"]) ∧
    toolCallStep tokenCount (step4Tools goParseAll fmtSourceNone) []
        ⟨[sysEx], [], false, fsEx⟩ [unknownCall]
      = some (⟨[sysEx], [], false, fsEx⟩, []) :=
  ⟨(duplicate_batch_amended tokenCount (step4Tools goParseAll fmtSourceNone) []).1
      ⟨[sysEx], [callNum], false, []⟩ callNum [] (by decide),
   (duplicate_batch_amended tokenCount (step4Tools goParseAll fmtSourceNone) []).2.1
      ⟨[sysEx], [], false, fsEx⟩ [readCall]
      [toolSuccessResponse "read_file" [("file_contents", .str "hi")]] fsEx ["read_file"]
      (by decide) rfl (by decide),
   (duplicate_batch_amended tokenCount (step4Tools goParseAll fmtSourceNone) []).2.2
      ⟨[sysEx], [], false, fsEx⟩ [unknownCall] fsEx [] (by decide) rfl⟩

/-- C6 counterexample: a non-duplicate batch consisting of one call to a name
absent from the registry produces NO tool-response message — `callTools`
skips it (`continue`) — contradicting "exactly one tool-response message is
collected per call in the batch". -/
theorem calltools_per_call_counterexample :
    callTools (step4Tools goParseAll fmtSourceNone) [unknownCall] [] = some ([], [], []) ∧
    ([unknownCall] : List ToolCall).length = 1 :=
  ⟨rfl, rfl⟩

/-- C6 (amended): dispatch is sequential and in the model's requested order —
`callTools` threads the filesystem left to right and its dispatch trace lists
exactly the registered call names in batch order, with exactly one
tool-response message per call that names a registered tool; calls naming
unregistered tools are skipped with no response.  The second conjunct is the
sequential decomposition: dispatching a concatenated batch equals dispatching
the first part and then the second on the resulting state. -/
theorem calltools_order_amended (tools : String → Option ToolImpl) :
    (∀ (batch : List ToolCall) (fs : FS) (results : List Message) (fs' : FS)
        (trace : List String),
        callTools tools batch fs = some (results, fs', trace) →
        trace = ((batch.filter fun tc => (tools tc.function.name).isSome).map
            fun tc => tc.function.name) ∧
        results.length = (batch.filter fun tc => (tools tc.function.name).isSome).length) ∧
    (∀ (b₁ b₂ : List ToolCall) (fs : FS),
        callTools tools (b₁ ++ b₂) fs =
          (callTools tools b₁ fs).bind fun r =>
            (callTools tools b₂ r.2.1).map fun r₂ =>
              (r.1 ++ r₂.1, r₂.2.1, r.2.2 ++ r₂.2.2)) :=
  ⟨callTools_spec tools, callTools_append tools⟩

theorem calltools_order_amended_witness :
    (["read_file"] =
        ((([readCall, unknownCall].filter
            fun tc => ((step4Tools goParseAll fmtSourceNone) tc.function.name).isSome).map
          fun tc => tc.function.name)) ∧
      ([toolSuccessResponse "read_file" [("file_contents", .str "hi")]] : List Message).length =
        ([readCall, unknownCall].filter
          fun tc => ((step4Tools goParseAll fmtSourceNone) tc.function.name).isSome).length) :=
  (calltools_order_amended (step4Tools goParseAll fmtSourceNone)).1
    [readCall, unknownCall] fsEx
    [toolSuccessResponse "read_file" [("file_contents", .str "hi")]] fsEx ["read_file"] rfl

/-- The `required` parameter list of `list_files`'s own `ToolDocument`
(step4 line 551): only `path` is required; the `extension` parameter is
documented as "If not provided, will list all files". -/
def listFilesRequired : List String := ["path"]

/-- C7 (code bug): a schema-well-formed `list_files` call omitting the
optional `extension` argument PANICS instead of returning a ToolResult.
Walking a directory holding one regular file `a.go`, the closure evaluates
`arguments["extension"] != ""` — true for the `nil` of a missing key — and
then `arguments["extension"].(string)` raises
`interface conversion: interface {} is nil, not string`, which nothing
recovers: the process crashes, so the failure is neither captured as a
`FAILED` result nor does the turn continue, although the tool's own schema
declares `extension` optional. -/
theorem list_files_panics_without_extension :
    ListFiles.Call [⟨"a.go", false⟩] none [("path", GoValue.str ".")] = none ∧
    lookupArg [("path", GoValue.str ".")] "extension" = none ∧
    ("extension" ∈ listFilesRequired) = False :=
  ⟨rfl, rfl, by simp [listFilesRequired]⟩

/-- Well-formed `golang_code_editor` arguments as the tool's schema declares
them: a string `path`, an integer `line_number` (a JSON number), and string
`type_change` / `line_change`. -/
def editorArgs (path : String) (ln : Int) (tc lc : String) : Args :=
  [("path", .str path), ("line_number", .num ln),
   ("type_change", .str tc), ("line_change", .str lc)]

/-- C10: a `golang_code_editor` call with well-formed arguments never panics
(first conjunct); an out-of-range line number, an unsupported change type, or
modified content that fails Go parsing each yield a FAILED result with the
filesystem untouched (second to fourth conjuncts); and in every case either
the filesystem is unchanged or the result is SUCCESS and the written content
derives from an edit that parsed successfully (last conjunct: the file is
written only after the modified content parses). -/
theorem goeditor_fails_closed (goParse : String → Bool) (fmtSource : String → Option String)
    (fs : FS) (path : String) (ln : Int) (tc lc : String) :
    (GoCodeEditor.Call goParse fmtSource fs (editorArgs path ln tc lc) =
        some (editorBody goParse fmtSource fs path ln (goTrimSpace tc) (goTrimSpace lc))) ∧
    (∀ content, fs.read path = some content →
        (ln < 1 ∨ ln > ((splitLines content).length : Int)) →
        editorBody goParse fmtSource fs path ln (goTrimSpace tc) (goTrimSpace lc) =
          (toolErrorResponse "golang_code_editor"
            ("line number " ++ toString ln ++ " is out of range (1-"
              ++ toString (splitLines content).length ++ ")"), fs)) ∧
    (∀ content, fs.read path = some content →
        ¬(ln < 1 ∨ ln > ((splitLines content).length : Int)) →
        editLines (splitLines content) ln.toNat (goTrimSpace tc) (goTrimSpace lc) = none →
        editorBody goParse fmtSource fs path ln (goTrimSpace tc) (goTrimSpace lc) =
          (toolErrorResponse "golang_code_editor"
            ("unsupported change type: " ++ goTrimSpace tc
              ++ ", please inform the user"), fs)) ∧
    (∀ content lines1, fs.read path = some content →
        ¬(ln < 1 ∨ ln > ((splitLines content).length : Int)) →
        editLines (splitLines content) ln.toNat (goTrimSpace tc) (goTrimSpace lc)
          = some lines1 →
        goParse (String.intercalate "\n" lines1) = false →
        editorBody goParse fmtSource fs path ln (goTrimSpace tc) (goTrimSpace lc) =
          (toolErrorResponse "golang_code_editor"
            "syntax error after modification, please inform the user", fs)) ∧
    (∀ msg fs1,
        editorBody goParse fmtSource fs path ln (goTrimSpace tc) (goTrimSpace lc)
          = (msg, fs1) →
        fs1 = fs ∨
          (msg.status = "SUCCESS" ∧ ∃ content lines1,
            fs.read path = some content ∧
            editLines (splitLines content) ln.toNat (goTrimSpace tc) (goTrimSpace lc)
              = some lines1 ∧
            goParse (String.intercalate "\n" lines1) = true ∧
            fs1 = fs.write path ((fmtSource (String.intercalate "\n" lines1)).getD
                    (String.intercalate "\n" lines1)))) := by
  refine ⟨rfl, fun content hread hrange => ?_, fun content hread hrange hedit => ?_,
          fun content lines1 hread hrange hedit hparse => ?_, fun msg fs1 h => ?_⟩
  · simp only [editorBody, hread]
    rw [if_pos hrange]
  · simp only [editorBody, hread]
    rw [if_neg hrange, hedit]
  · simp only [editorBody, hread]
    rw [if_neg hrange, hedit]
    simp only [hparse, Bool.false_eq_true, if_false]
  · unfold editorBody at h
    cases hread : fs.read path with
    | none =>
      rw [hread] at h
      simp only [Prod.mk.injEq] at h
      exact Or.inl h.2.symm
    | some content =>
      rw [hread] at h
      simp only at h
      by_cases hrange : ln < 1 ∨ ln > (((splitLines content).length : Int))
      · rw [if_pos hrange] at h
        simp only [Prod.mk.injEq] at h
        exact Or.inl h.2.symm
      · rw [if_neg hrange] at h
        cases hedit : editLines (splitLines content) ln.toNat (goTrimSpace tc)
            (goTrimSpace lc) with
        | none =>
          rw [hedit] at h
          simp only [Prod.mk.injEq] at h
          exact Or.inl h.2.symm
        | some lines1 =>
          rw [hedit] at h
          simp only at h
          by_cases hparse : goParse (String.intercalate "\n" lines1) = true
          · rw [if_pos hparse] at h
            simp only [Prod.mk.injEq] at h
            refine Or.inr ⟨?_, content, lines1, rfl, hedit, hparse, h.2.symm⟩
            rw [← h.1]
            rfl
          · rw [if_neg hparse] at h
            simp only [Prod.mk.injEq] at h
            exact Or.inl h.2.symm

theorem goeditor_fails_closed_witness :
    (GoCodeEditor.Call goParseAll fmtSourceNone [("main.go", "a\nb")]
        (editorArgs "main.go" 5 "add" "x") =
      some (editorBody goParseAll fmtSourceNone [("main.go", "a\nb")] "main.go" 5
              "add" "x")) ∧
    editorBody goParseAll fmtSourceNone [("main.go", "a\nb")] "main.go" 5 "add" "x" =
      (toolErrorResponse "golang_code_editor" "line number 5 is out of range (1-2)",
       [("main.go", "a\nb")]) := by
  have h := goeditor_fails_closed goParseAll fmtSourceNone [("main.go", "a\nb")]
      "main.go" 5 "add" "x"
  exact ⟨h.1, h.2.1 "a\nb" rfl (by decide)⟩

end AiTraining
